import Mathlib

/-!
Verification of the Seattle Frequent Transit Network engine.

This file embeds, as executable Lean definitions, the core algorithms of the
repository and proves the specification claims about them:

* the frequent-transit stop classifier of `processAllStopsData`
  (src/seattle-transit-access.tsx),
* the future-stop admission filter of `addFutureStops`
  (src/seattle-transit-access.tsx),
* the GTFS frequency aggregation of `calculateStopFrequencies` and the
  weekday service selection of `getRelevantServiceIds`
  (src/isochrone-generation/extract-all-stops.js),
* the walkshed resolution, union reduction, boundary clipping and census
  population apportionment of `findIsochroneForStop`,
  `calculateWalkshedCoverage` and `loadCensusData`
  (src/seattle-transit-access.tsx).

JavaScript numbers that hold trip counts are embedded as `Nat`; geometric
areas, coordinates and population ratios as `ℚ` (the source computes with
IEEE doubles; the claims under study are about data flow and exact threshold
comparisons on integers, not float rounding).  The third-party geometry
primitives (turf.js) are embedded as an abstract capability record over an
arbitrary polygon type, with fallible primitives returning `Except Unit`:
a `.error` models a thrown exception at the call site.
-/

namespace Transit

/-! ## Hourly trip profiles

The JSON `hourly_trips` object maps decimal hour strings "0".."23" to trip
counts.  The decimal-string keying is a bijective re-keying of `Nat` hours
(both producer and consumer use `h.toString()`), so profiles are embedded as
association lists with `Nat` keys.  A missing hour reads as 0, which models
`hourlyTrips[h.toString()] || 0`. -/

abbrev HourlyTrips := List (Nat × Nat)

def hourCount (m : HourlyTrips) (h : Nat) : Nat :=
  ((m.find? (fun p => p.1 == h)).map (fun p => p.2)).getD 0

/-! ## Frequent-transit classifier (`processAllStopsData`)

The source loops `for (let h = 6; h < 19; h++)`, reads
`hourlyTrips[h.toString()] || 0`, returns `false` as soon as an hour has
fewer than 4 trips, accumulates the total, and finally requires `total ≥ 77`.
`freqLoop m h fuel total` is that loop with `fuel` iterations remaining. -/

def freqLoop (m : HourlyTrips) : Nat → Nat → Nat → Bool
  | _, 0, total => !(total < 77)
  | h, fuel + 1, total =>
    let trips := hourCount m h
    if trips < 4 then false else freqLoop m (h + 1) fuel (total + trips)

/-- The filter predicate of `processAllStopsData` on a present profile:
13 iterations starting at hour 6 (hours 6..18), starting total 0. -/
def isFrequentStop (m : HourlyTrips) : Bool :=
  freqLoop m 6 13 0

/-- The stop-level guard: `if (!hourlyTrips) return false`. -/
def stopIsFrequent (hourly_trips : Option HourlyTrips) : Bool :=
  match hourly_trips with
  | none => false
  | some m => isFrequentStop m

/-- Sum of the counts over the 13-hour window [6, 18]. -/
def windowTotal (m : HourlyTrips) : Nat :=
  ((List.range' 6 13).map (hourCount m)).sum

/-! ## Future-stop admission (`addFutureStops`)

`stop.enabled === false` rejects; then the same hourly loop runs over
`stop.hourly_trips || {}` but with no total check at the end. -/

def futureHoursLoop (m : HourlyTrips) : Nat → Nat → Bool
  | _, 0 => true
  | h, fuel + 1 =>
    let trips := hourCount m h
    if trips < 4 then false else futureHoursLoop m (h + 1) fuel

structure FutureStop where
  id : String
  name : String
  lat : ℚ
  lon : ℚ
  enabled : Option Bool
  hourly_trips : Option HourlyTrips
  route_name : Option String
  description : Option String
  deriving Repr, DecidableEq

/-- The filter predicate of `addFutureStops` (and of `loadFutureStops` in
extract-all-stops.js, which is identical). -/
def futureStopOk (s : FutureStop) : Bool :=
  if s.enabled == some false then false
  else futureHoursLoop (s.hourly_trips.getD []) 6 13

/-- A stop record of the visualizer's frequent-stop list.  Regular stops are
mapped with no `isFuture` flag (JS `undefined`, falsy: embedded `false`). -/
structure SiteStop where
  id : String
  name : String
  lat : ℚ
  lon : ℚ
  isFuture : Bool
  routeName : Option String
  description : Option String
  hourlyTrips : Option HourlyTrips
  deriving Repr, DecidableEq

/-- The filter-and-map of `processAllStopsData` over the loaded stop data. -/
structure AllStop where
  id : String
  name : String
  lat : ℚ
  lon : ℚ
  hourly_trips : Option HourlyTrips
  deriving Repr, DecidableEq

def processAllStops (allStops : List AllStop) : List SiteStop :=
  (allStops.filter (fun s => stopIsFrequent s.hourly_trips)).map
    (fun s =>
      { id := s.id, name := s.name, lat := s.lat, lon := s.lon,
        isFuture := false, routeName := none, description := none,
        hourlyTrips := s.hourly_trips })

/-- The map in `addFutureStops` from a future-stops record to a stop of the
frequent list, with `isFuture: true`. -/
def futureToSiteStop (s : FutureStop) : SiteStop :=
  { id := s.id, name := s.name, lat := s.lat, lon := s.lon, isFuture := true,
    routeName := s.route_name, description := s.description,
    hourlyTrips := s.hourly_trips }

/-- `addFutureStops`: for a year without a future-stops file (only "2027" has
one) or when the file is missing, return the existing stops unchanged;
otherwise append the enabled future stops passing the hourly filter.
`futureData = none` models a failed fetch of the future-stops JSON. -/
def addFutureStops (existingStops : List SiteStop) (year : String)
    (futureData : Option (List FutureStop)) : List SiteStop :=
  if !(["2027"].contains year) then existingStops
  else
    match futureData with
    | none => existingStops
    | some stops => existingStops ++ (stops.filter futureStopOk).map futureToSiteStop

end Transit

/-! ### Loop characterizations -/

namespace Transit

theorem freqLoop_eq_true_iff (m : HourlyTrips) :
    ∀ fuel h total, freqLoop m h fuel total = true ↔
      ((∀ x ∈ List.range' h fuel, 4 ≤ hourCount m x) ∧
        77 ≤ total + ((List.range' h fuel).map (hourCount m)).sum) := by
  intro fuel
  induction fuel with
  | zero =>
    intro h total
    simp [freqLoop, List.range']
  | succ fuel ih =>
    intro h total
    rw [List.range'_succ]
    by_cases hlt : hourCount m h < 4
    · simp only [freqLoop, if_pos hlt]
      constructor
      · intro hfalse; cases hfalse
      · rintro ⟨hall, -⟩
        exact absurd (hall h (List.mem_cons_self _ _)) (by omega)
    · simp only [freqLoop, if_neg hlt]
      rw [ih (h + 1) (total + hourCount m h)]
      constructor
      · rintro ⟨hall, hsum⟩
        refine ⟨?_, ?_⟩
        · intro x hx
          rcases List.mem_cons.mp hx with h1 | h2
          · subst h1; omega
          · exact hall x h2
        · simp only [List.map_cons, List.sum_cons]
          omega
      · rintro ⟨hall, hsum⟩
        refine ⟨fun x hx => hall x (List.mem_cons_of_mem _ hx), ?_⟩
        simp only [List.map_cons, List.sum_cons] at hsum
        omega

end Transit

namespace Transit

theorem futureHoursLoop_eq_true_iff (m : HourlyTrips) :
    ∀ fuel h, futureHoursLoop m h fuel = true ↔
      ∀ x ∈ List.range' h fuel, 4 ≤ hourCount m x := by
  intro fuel
  induction fuel with
  | zero =>
    intro h
    simp [futureHoursLoop, List.range']
  | succ fuel ih =>
    intro h
    rw [List.range'_succ]
    by_cases hlt : hourCount m h < 4
    · simp only [futureHoursLoop, if_pos hlt]
      constructor
      · intro hfalse; cases hfalse
      · intro hall
        exact absurd (hall h (List.mem_cons_self _ _)) (by omega)
    · simp only [futureHoursLoop, if_neg hlt]
      rw [ih (h + 1)]
      constructor
      · intro hall x hx
        rcases List.mem_cons.mp hx with h1 | h2
        · subst h1; omega
        · exact hall x h2
      · intro hall x hx
        exact hall x (List.mem_cons_of_mem _ hx)

/-- Profile with hours 6..17 at 4 trips and hour 18 at 29: every window hour
is at least 4 and the window total is 77. -/
def pass77 : HourlyTrips := (List.range' 6 12).map (fun h => (h, 4)) ++ [(18, 29)]

/-- Same shape with hour 18 at 28: window total 76. -/
def fail76 : HourlyTrips := (List.range' 6 12).map (fun h => (h, 4)) ++ [(18, 28)]

/-- Hour 6 at 3 trips, hours 7..18 at 100: huge total, one bad hour. -/
def hourAt3 : HourlyTrips := (6, 3) :: (List.range' 7 12).map (fun h => (h, 100))

/-- Flat profile: every hour 6..18 at exactly 4 trips, window total 52. -/
def flat4 : HourlyTrips := (List.range' 6 13).map (fun h => (h, 4))

/-- Claim C1: a stop is classified frequent iff every hour in [6, 18] has at
least 4 trips (missing hours read as 0) and the sum over those 13 hours is at
least 77; a profile with all window hours ≥ 4 and total 77 passes, one with
total 76 fails, and one with a single hour at 3 fails regardless of total. -/
theorem frequent_classifier_spec :
    (∀ m : HourlyTrips, isFrequentStop m = true ↔
        ((∀ h ∈ List.range' 6 13, 4 ≤ hourCount m h) ∧ 77 ≤ windowTotal m)) ∧
    isFrequentStop pass77 = true ∧ windowTotal pass77 = 77 ∧
    isFrequentStop fail76 = false ∧ windowTotal fail76 = 76 ∧
    (∀ h ∈ List.range' 6 13, 4 ≤ hourCount fail76 h) ∧
    isFrequentStop hourAt3 = false ∧ hourCount hourAt3 6 = 3 ∧
    77 ≤ windowTotal hourAt3 := by
  refine ⟨?_, by decide, by decide, by decide, by decide, by decide,
    by decide, by decide, by decide⟩
  intro m
  have h := freqLoop_eq_true_iff m 13 6 0
  unfold isFrequentStop windowTotal
  rw [h]
  simp

/-- Witness for C1: the threshold profile `pass77` is classified frequent,
obtained by applying the classifier characterization. -/
theorem frequent_classifier_spec_witness : isFrequentStop pass77 = true :=
  (frequent_classifier_spec.1 pass77).mpr (by decide)

/-- A future stop meeting exactly the hourly bar: enabled, 4 trips in every
hour 6..18 (window total 52). -/
def demoFutureStop : FutureStop :=
  { id := "future_1", name := "Future Station", lat := 47, lon := -122,
    enabled := some true, hourly_trips := some flat4,
    route_name := some "Link", description := none }

/-- Claim C10: a future stop is admitted iff its enabled flag is not `false`
and every hour in [6, 18] has at least 4 trips; the total ≥ 77 requirement of
the regular classifier is not applied, so the flat 4-per-hour profile (total
52) is admitted as a future stop while a regular stop with the identical
profile is rejected. -/
theorem future_stop_admission_spec :
    (∀ s : FutureStop, futureStopOk s = true ↔
        (s.enabled ≠ some false ∧
          ∀ h ∈ List.range' 6 13, 4 ≤ hourCount (s.hourly_trips.getD []) h)) ∧
    (∀ existingStops stops, addFutureStops existingStops "2027" (some stops) =
        existingStops ++ (stops.filter futureStopOk).map futureToSiteStop) ∧
    futureStopOk demoFutureStop = true ∧
    demoFutureStop.hourly_trips = some flat4 ∧
    windowTotal flat4 = 52 ∧
    isFrequentStop flat4 = false ∧
    stopIsFrequent (some flat4) = false := by
  refine ⟨?_, fun _ _ => rfl, by decide, by decide, by decide, by decide, by decide⟩
  intro s
  unfold futureStopOk
  by_cases hen : s.enabled == some false
  · simp only [if_pos hen]
    constructor
    · intro hfalse; cases hfalse
    · rintro ⟨hne, -⟩
      exact absurd (beq_iff_eq.mp hen) hne
  · simp only [if_neg hen]
    rw [futureHoursLoop_eq_true_iff _ 13 6]
    constructor
    · intro hall
      exact ⟨fun he => hen (beq_iff_eq.mpr he), hall⟩
    · rintro ⟨-, hall⟩
      exact hall

/-- Witness for C10: the flat 4-per-hour future stop is admitted, obtained by
applying the admission characterization. -/
theorem future_stop_admission_spec_witness : futureStopOk demoFutureStop = true :=
  (future_stop_admission_spec.1 demoFutureStop).mpr (by decide)

end Transit

namespace Transit

/-! ## Service calendar selection (`getRelevantServiceIds`)

GTFS calendar rows are parsed with string fields; a missing or empty field is
embedded as `""` (falsy in JS).  JS `Date` arithmetic is embedded by the
standard civil-calendar day numbering (proleptic Gregorian): `new Date(y, m-1,
d)` corresponds to the day number `daysFromCivil y m d`, `setDate(getDate()+1)`
to its successor, `getDay()` to `jsWeekday` (0 = Sunday, so Wednesday is 3),
and reading the date components back to `civilFromDays`. -/

/-- Lexicographic comparison of code-unit sequences: the comparator JS's
default `Array.prototype.sort` and string `<=` apply to strings. -/
def charListLeb : List Char → List Char → Bool
  | [], _ => true
  | _ :: _, [] => false
  | a :: as, b :: bs =>
    if a.toNat < b.toNat then true
    else if b.toNat < a.toNat then false
    else charListLeb as bs

def strLeb (a b : String) : Bool :=
  charListLeb a.toList b.toList

structure CalendarEntry where
  service_id : String
  monday : String
  tuesday : String
  wednesday : String
  thursday : String
  friday : String
  saturday : String
  sunday : String
  start_date : String
  end_date : String
  deriving Repr, DecidableEq

def isWeekdayEntry (c : CalendarEntry) : Bool :=
  c.monday == "1" && c.tuesday == "1" && c.wednesday == "1" &&
    c.thursday == "1" && c.friday == "1"

def weekdayEntries (calendar : List CalendarEntry) : List CalendarEntry :=
  calendar.filter isWeekdayEntry

/-- `weekdayServiceEntries.map(s => s.start_date).filter(d => d)`. -/
def weekdayStartDates (calendar : List CalendarEntry) : List String :=
  ((weekdayEntries calendar).map (fun c => c.start_date)).filter (fun d => d != "")

/-- `allStartDates.sort()` then the last element: JS default sort compares
strings by code units, which is the lexicographic `≤` on `String`. -/
def latestStartDate (calendar : List CalendarEntry) : Option String :=
  ((weekdayStartDates calendar).mergeSort strLeb).getLast?

/-- Decimal digit value of a character, `none` for a non-digit. -/
def digitVal (c : Char) : Option Nat :=
  if c.toNat < 48 then none
  else if 57 < c.toNat then none
  else some (c.toNat - 48)

def parseDigitsAux : List Char → Nat → Option Nat
  | [], acc => some acc
  | c :: cs, acc =>
    match digitVal c with
    | none => none
    | some d => parseDigitsAux cs (acc * 10 + d)

/-- `parseInt` on an all-digit field: JS yields `NaN` (embedded `none`) on an
empty or non-digit field. -/
def parseDigits : List Char → Option Nat
  | [] => none
  | cs => parseDigitsAux cs 0

/-- `parseInt(s.substring(0,4))`, `(4,6)`, `(6,8)`; an unparsable component
(JS `NaN`) is embedded as `none`. -/
def parseYYYYMMDD (s : String) : Option (Nat × Nat × Nat) :=
  let cs := s.toList
  match parseDigits (cs.take 4), parseDigits ((cs.drop 4).take 2),
      parseDigits ((cs.drop 6).take 2) with
  | some y, some mo, some dy => some (y, mo, dy)
  | _, _, _ => none

/-- Day number of the proleptic Gregorian date `y-m-d` (1-based month), in
days since 0000-03-01; the standard civil-from-days algorithm. -/
def daysFromCivil (y mo dy : Nat) : Nat :=
  let yy := if mo ≤ 2 then y - 1 else y
  let era := yy / 400
  let yoe := yy % 400
  let mp := (mo + 9) % 12
  let doy := (153 * mp + 2) / 5 + (dy - 1)
  let doe := yoe * 365 + yoe / 4 - yoe / 100 + doy
  era * 146097 + doe

/-- Inverse of `daysFromCivil`: the `(year, month, day)` components a JS
`Date` holding day number `z` reports. -/
def civilFromDays (z : Nat) : Nat × Nat × Nat :=
  let era := z / 146097
  let doe := z % 146097
  let yoe := (doe - doe / 1460 + doe / 36524 - doe / 146096) / 365
  let y := yoe + era * 400
  let doy := doe - (365 * yoe + yoe / 4 - yoe / 100)
  let mp := (5 * doy + 2) / 153
  let dy := doy - (153 * mp + 2) / 5 + 1
  let mo := if mp < 10 then mp + 3 else mp - 9
  (if mo ≤ 2 then y + 1 else y, mo, dy)

/-- JS `Date.prototype.getDay` of day number `z` (0 = Sunday): day 719468 is
1970-01-01, a Thursday (4). -/
def jsWeekday (z : Nat) : Nat :=
  (z + 3) % 7

/-- The `while (wednesdayDate.getDay() !== 3)` loop: starting from day `z`,
advance one day at a time until the weekday is Wednesday.  The source loop is
unbounded; seven iterations always suffice, so it is embedded with fuel 7. -/
def findWednesday : Nat → Nat → Nat
  | z, 0 => z
  | z, fuel + 1 => if jsWeekday z = 3 then z else findWednesday (z + 1) fuel

/-- `String(n).padStart(2, "0")`. -/
def pad2 (n : Nat) : String :=
  if n < 10 then "0" ++ toString n else toString n

/-- Format a day number back to `YYYYMMDD` the way the source does from the
`Date` components. -/
def formatYYYYMMDD (z : Nat) : String :=
  let c := civilFromDays z
  toString c.1 ++ pad2 c.2.1 ++ pad2 c.2.2

/-- The final filter: `wednesdayDateStr >= (s.start_date || "0") &&
wednesdayDateStr <= (s.end_date || "99999999")`. -/
def serviceActiveOn (wednesdayStr : String) (c : CalendarEntry) : Bool :=
  let startDate := if c.start_date == "" then "0" else c.start_date
  let endDate := if c.end_date == "" then "99999999" else c.end_date
  strLeb startDate wednesdayStr && strLeb wednesdayStr endDate

/-- `getRelevantServiceIds` of extract-all-stops.js.  An unparsable latest
start date makes the JS `Date` invalid and the Wednesday loop diverge; the
claims only concern well-formed `YYYYMMDD` dates, and that branch is embedded
as the empty result. -/
def getRelevantServiceIds (calendar : List CalendarEntry) : List String :=
  let wde := weekdayEntries calendar
  if wde.isEmpty then []
  else
    match latestStartDate calendar with
    | none => []
    | some latest =>
      match parseYYYYMMDD latest with
      | none => []
      | some (y, mo, dy) =>
        let wednesdayStr := formatYYYYMMDD (findWednesday (daysFromCivil y mo dy) 7)
        (wde.filter (serviceActiveOn wednesdayStr)).map (fun c => c.service_id)

end Transit

namespace Transit

theorem rel_getLast_of_pairwise {α : Type} {r : α → α → Prop} (hrefl : ∀ a : α, r a a) :
    ∀ {l : List α}, l.Pairwise r → ∀ {x : α}, l.getLast? = some x →
      ∀ y ∈ l, r y x := by
  intro l
  induction l with
  | nil => intro _ x hx; cases hx
  | cons a l ih =>
    intro hs x hx y hy
    rcases List.pairwise_cons.mp hs with ⟨ha, hl⟩
    cases l with
    | nil =>
      simp only [List.getLast?_singleton, Option.some.injEq] at hx
      simp only [List.mem_singleton] at hy
      subst hx; subst hy
      exact hrefl _
    | cons b l' =>
      rw [List.getLast?_cons_cons] at hx
      have hxmem : x ∈ b :: l' := by
        rcases List.mem_getLast?_eq_getLast hx with ⟨hne, rfl⟩
        exact List.getLast_mem hne
      rcases List.mem_cons.mp hy with rfl | hy'
      · exact ha x hxmem
      · exact ih hl hx y hy'

theorem exists_wednesday_lt7 (z : Nat) : ∃ i, i < 7 ∧ jsWeekday (z + i) = 3 := by
  unfold jsWeekday
  refine ⟨(7 - (z + 3) % 7 + 3) % 7, by omega, by omega⟩

theorem findWednesday_spec :
    ∀ fuel z, (∃ i, i < fuel ∧ jsWeekday (z + i) = 3) →
      z ≤ findWednesday z fuel ∧ jsWeekday (findWednesday z fuel) = 3 ∧
        ∀ n, z ≤ n → n < findWednesday z fuel → jsWeekday n ≠ 3 := by
  intro fuel
  induction fuel with
  | zero =>
    rintro z ⟨i, hi, -⟩
    omega
  | succ fuel ih =>
    rintro z ⟨i, hi, hwi⟩
    by_cases h3 : jsWeekday z = 3
    · refine ⟨?_, ?_, ?_⟩ <;> simp only [findWednesday, if_pos h3]
      · exact le_refl z
      · exact h3
      · intro n h1 h2; omega
    · have hex : ∃ j, j < fuel ∧ jsWeekday (z + 1 + j) = 3 := by
        cases i with
        | zero => simp only [Nat.add_zero] at hwi; exact absurd hwi h3
        | succ j =>
          refine ⟨j, by omega, ?_⟩
          have harg : z + 1 + j = z + (j + 1) := by omega
          rw [harg]; exact hwi
      rcases ih (z + 1) hex with ⟨hle, hwed, hmin⟩
      refine ⟨?_, ?_, ?_⟩ <;> simp only [findWednesday, if_neg h3]
      · omega
      · exact hwed
      · intro n h1 h2
        rcases Nat.eq_or_lt_of_le h1 with rfl | h1'
        · exact h3
        · exact hmin n (by omega) h2

end Transit

namespace Transit

theorem charListLeb_refl : ∀ l, charListLeb l l = true := by
  intro l
  induction l with
  | nil => rfl
  | cons a as ih =>
    simp only [charListLeb]
    rw [if_neg (by omega), if_neg (by omega)]
    exact ih

theorem charListLeb_trans :
    ∀ l1 l2 l3, charListLeb l1 l2 = true → charListLeb l2 l3 = true →
      charListLeb l1 l3 = true := by
  intro l1
  induction l1 with
  | nil => intro l2 l3 _ _; rfl
  | cons a as ih =>
    intro l2 l3 h12 h23
    cases l2 with
    | nil => simp [charListLeb] at h12
    | cons b bs =>
      cases l3 with
      | nil => simp [charListLeb] at h23
      | cons c cs =>
        simp only [charListLeb] at h12 h23 ⊢
        by_cases hab : a.toNat < b.toNat
        · by_cases hbc : b.toNat < c.toNat
          · rw [if_pos (by omega)]
          · rw [if_neg hbc] at h23
            by_cases hcb : c.toNat < b.toNat
            · rw [if_pos hcb] at h23; cases h23
            · rw [if_pos (by omega)]
        · rw [if_neg hab] at h12
          by_cases hba : b.toNat < a.toNat
          · rw [if_pos hba] at h12; cases h12
          · rw [if_neg hba] at h12
            by_cases hbc : b.toNat < c.toNat
            · rw [if_pos (by omega)]
            · rw [if_neg hbc] at h23
              by_cases hcb : c.toNat < b.toNat
              · rw [if_pos hcb] at h23; cases h23
              · rw [if_neg hcb] at h23
                rw [if_neg (by omega : ¬a.toNat < c.toNat),
                  if_neg (by omega : ¬c.toNat < a.toNat)]
                exact ih bs cs h12 h23

theorem charListLeb_total : ∀ l1 l2, (charListLeb l1 l2 || charListLeb l2 l1) = true := by
  intro l1
  induction l1 with
  | nil => intro l2; rfl
  | cons a as ih =>
    intro l2
    cases l2 with
    | nil => rfl
    | cons b bs =>
      simp only [charListLeb]
      by_cases hab : a.toNat < b.toNat
      · rw [if_pos hab]; rfl
      · by_cases hba : b.toNat < a.toNat
        · rw [if_neg hab, if_pos hba, if_pos hba]
          rfl
        · rw [if_neg hab, if_neg hba, if_neg hba, if_neg hab]
          exact ih bs

theorem strLeb_refl (a : String) : strLeb a a = true :=
  charListLeb_refl _

theorem strLeb_trans (a b c : String) (h1 : strLeb a b = true) (h2 : strLeb b c = true) :
    strLeb a c = true :=
  charListLeb_trans _ _ _ h1 h2

theorem strLeb_total (a b : String) : (strLeb a b || strLeb b a) = true :=
  charListLeb_total _ _

end Transit

namespace Transit

/-- Claim C5: for a calendar with a Monday–Friday-active entry having a
non-empty start date, the selection takes the lexicographically latest start
date among such entries, advances to the first Wednesday on or after that
date, and returns exactly the service-ids of the Monday–Friday-active entries
whose [start, end] interval (defaults "0" / "99999999") contains that
Wednesday; the reached day is always a Wednesday. -/
theorem service_selection_spec (calendar : List CalendarEntry) (latest : String)
    (y mo dy : Nat)
    (hl : latestStartDate calendar = some latest)
    (hp : parseYYYYMMDD latest = some (y, mo, dy)) :
    (latest ∈ weekdayStartDates calendar ∧
      ∀ s ∈ weekdayStartDates calendar, strLeb s latest = true) ∧
    (daysFromCivil y mo dy ≤ findWednesday (daysFromCivil y mo dy) 7 ∧
      jsWeekday (findWednesday (daysFromCivil y mo dy) 7) = 3 ∧
      ∀ n, daysFromCivil y mo dy ≤ n → n < findWednesday (daysFromCivil y mo dy) 7 →
        jsWeekday n ≠ 3) ∧
    (∀ sid, sid ∈ getRelevantServiceIds calendar ↔
      ∃ c ∈ weekdayEntries calendar, c.service_id = sid ∧
        strLeb (if c.start_date = "" then "0" else c.start_date)
          (formatYYYYMMDD (findWednesday (daysFromCivil y mo dy) 7)) = true ∧
        strLeb (formatYYYYMMDD (findWednesday (daysFromCivil y mo dy) 7))
          (if c.end_date = "" then "99999999" else c.end_date) = true) := by
  have hlu : ((weekdayStartDates calendar).mergeSort strLeb).getLast? = some latest := hl
  have hpair : List.Pairwise (fun a b => strLeb a b = true)
      ((weekdayStartDates calendar).mergeSort strLeb) :=
    List.sorted_mergeSort strLeb_trans strLeb_total _
  have hmemSorted : latest ∈ (weekdayStartDates calendar).mergeSort strLeb := by
    rcases List.mem_getLast?_eq_getLast hlu with ⟨hne, rfl⟩
    exact List.getLast_mem hne
  have hperm := List.mergeSort_perm (weekdayStartDates calendar) strLeb
  have h1a : latest ∈ weekdayStartDates calendar := hperm.mem_iff.mp hmemSorted
  have h1b : ∀ s ∈ weekdayStartDates calendar, strLeb s latest = true := by
    intro s hs
    exact rel_getLast_of_pairwise strLeb_refl hpair hlu s (hperm.mem_iff.mpr hs)
  have hwne : (weekdayEntries calendar).isEmpty = false := by
    have h2 : latest ∈ (weekdayEntries calendar).map (fun c => c.start_date) :=
      List.mem_of_mem_filter h1a
    rcases List.mem_map.mp h2 with ⟨c, hc, -⟩
    cases hwde : weekdayEntries calendar with
    | nil => rw [hwde] at hc; cases hc
    | cons _ _ => rfl
  refine ⟨⟨h1a, h1b⟩, findWednesday_spec 7 _ (exists_wednesday_lt7 _), ?_⟩
  intro sid
  have hred : getRelevantServiceIds calendar =
      ((weekdayEntries calendar).filter
        (serviceActiveOn (formatYYYYMMDD (findWednesday (daysFromCivil y mo dy) 7)))).map
        (fun c => c.service_id) := by
    simp [getRelevantServiceIds, hwne, hl, hp]
  rw [hred, List.mem_map]
  constructor
  · rintro ⟨c, hcf, rfl⟩
    rcases List.mem_filter.mp hcf with ⟨hcm, hcb⟩
    unfold serviceActiveOn at hcb
    simp only [Bool.and_eq_true, beq_iff_eq] at hcb
    exact ⟨c, hcm, rfl, hcb.1, hcb.2⟩
  · rintro ⟨c, hcm, rfl, hs1, hs2⟩
    refine ⟨c, List.mem_filter.mpr ⟨hcm, ?_⟩, rfl⟩
    unfold serviceActiveOn
    simp only [Bool.and_eq_true, beq_iff_eq]
    exact ⟨hs1, hs2⟩

end Transit

namespace Transit

/-- A small calendar: two weekday services (latest start 2025-08-30, a
Saturday; the following Wednesday is 2025-09-03, inside wk1's range but past
wk2's end date) and one Saturday-only service. -/
def demoCalendar : List CalendarEntry :=
  [ { service_id := "wk1", monday := "1", tuesday := "1", wednesday := "1",
      thursday := "1", friday := "1", saturday := "0", sunday := "0",
      start_date := "20250830", end_date := "20251231" },
    { service_id := "wk2", monday := "1", tuesday := "1", wednesday := "1",
      thursday := "1", friday := "1", saturday := "0", sunday := "0",
      start_date := "20250601", end_date := "20250902" },
    { service_id := "sat", monday := "0", tuesday := "0", wednesday := "0",
      thursday := "0", friday := "0", saturday := "1", sunday := "0",
      start_date := "20250601", end_date := "20251231" } ]

unseal List.merge List.mergeSort in
/-- Witness for C5: on the demo calendar the reached day is a Wednesday and
service "wk1" is selected, both obtained by applying the selection theorem. -/
theorem service_selection_spec_witness :
    jsWeekday (findWednesday (daysFromCivil 2025 8 30) 7) = 3 ∧
    "wk1" ∈ getRelevantServiceIds demoCalendar :=
  ⟨(service_selection_spec demoCalendar "20250830" 2025 8 30
      (by decide) (by decide)).2.1.2.1,
    ((service_selection_spec demoCalendar "20250830" 2025 8 30
      (by decide) (by decide)).2.2 "wk1").mpr (by decide)⟩

end Transit

namespace Transit

/-! ## GTFS frequency aggregation (`calculateStopFrequencies`)

Rows are parsed with string fields; a missing or empty field is `none`.
`tripTimes` buckets are JS objects keyed by the hour number; its keys are
compared as property names (strings), which the dedup guard
`if (!tripTimes[tripId])` inspects with the trip id. -/

structure TripRow where
  trip_id : String
  route_id : String
  direction_id : String
  service_id : String
  deriving Repr, DecidableEq

structure StopTimeRow where
  trip_id : String
  stop_id : String
  arrival_time : Option String
  departure_time : Option String
  deriving Repr, DecidableEq

/-- JS truthiness of an optional string field: missing and `""` are falsy. -/
def truthyStr : Option String → Option String
  | some s => if s == "" then none else some s
  | none => none

/-- `stopTime.arrival_time || stopTime.departure_time`. -/
def pickTime (st : StopTimeRow) : Option String :=
  match truthyStr st.arrival_time with
  | some t => some t
  | none => truthyStr st.departure_time

/-- `parseInt(time.split(":")[0]) % 24`.  The leading field of a GTFS time is
all digits; a non-digit field gives JS `NaN`, embedded `none` (such a record
never reaches an hour bucket 0..23 that the output reads). -/
def parseHourField (time : String) : Option Nat :=
  (parseDigits (time.toList.takeWhile (fun c => c != ':'))).map (fun n => n % 24)

/-- The `tripInfo` lookup object: built by forward iteration with overwrite,
so the last row with a given trip id wins. -/
def tripInfoOf (trips : List TripRow) (id : String) : Option TripRow :=
  trips.reverse.find? (fun t => t.trip_id == id)

/-- Membership of a stop-time's trip in the `activeTrips` set. -/
def isActiveTrip (trips : List TripRow) (activeServiceIds : List String)
    (id : String) : Bool :=
  trips.any (fun t => t.trip_id == id && activeServiceIds.contains t.service_id)

/-- The hard-coded `combinableRoutes` map: routes 3 and 4. -/
def combinableRoute? (r : String) : Option String :=
  if r == "100173" then some "100219"
  else if r == "100219" then some "100173"
  else none

/-- `[route_id, otherRoute].sort()` joined with "|": the sorted pair under the
JS default (code-unit lexicographic) comparator. -/
def routeKey (r : String) : String :=
  match combinableRoute? r with
  | none => r
  | some other =>
    let first := if strLeb r other then r else other
    let second := if strLeb r other then other else r
    first ++ "|" ++ second

/-- One entry of `stopRouteDirectionHeadways`: `tripTimes` maps an hour bucket
to the insertion-ordered set of trip ids counted in it. -/
structure GroupData where
  stop_id : String
  route_id : String
  direction_id : String
  tripTimes : List (Nat × List String)
  deriving Repr, DecidableEq

/-- JS property-key test `tripTimes[x]`: the object's keys are the decimal
strings of its hour buckets. -/
def tripTimesHasKey (tt : List (Nat × List String)) (x : String) : Bool :=
  tt.any (fun p => toString p.1 == x)

/-- `if (!tripTimes[hour]) tripTimes[hour] = new Set(); tripTimes[hour].add(tripId)`. -/
def bucketAdd (tt : List (Nat × List String)) (hour : Nat) (tripId : String) :
    List (Nat × List String) :=
  match tt.find? (fun p => p.1 == hour) with
  | some _ =>
    tt.map (fun p =>
      if p.1 == hour then (p.1, if p.2.contains tripId then p.2 else p.2 ++ [tripId])
      else p)
  | none => tt ++ [(hour, [tripId])]

/-- The guarded insertion `if (!tripTimes[tripId]) { ... add ... }`: the guard
reads the property named by the trip id, whose only keys are hour buckets. -/
def groupAdd (g : GroupData) (hour : Nat) (tripId : String) : GroupData :=
  if tripTimesHasKey g.tripTimes tripId then g
  else { g with tripTimes := bucketAdd g.tripTimes hour tripId }

/-- Processing of one retained stop-time row into `stopRouteDirectionHeadways`
(an insertion-ordered map keyed by the string `stopId|routeKey|direction`). -/
def processStopTime (trips : List TripRow) (hw : List (String × GroupData))
    (st : StopTimeRow) : List (String × GroupData) :=
  match pickTime st with
  | none => hw
  | some time =>
    match parseHourField time with
    | none => hw
    | some hour =>
      match tripInfoOf trips st.trip_id with
      | none => hw
      | some trip =>
        let rid := routeKey trip.route_id
        let key := st.stop_id ++ "|" ++ rid ++ "|" ++ trip.direction_id
        match hw.find? (fun p => p.1 == key) with
        | none =>
          hw ++ [(key, groupAdd ⟨st.stop_id, rid, trip.direction_id, []⟩ hour st.trip_id)]
        | some _ =>
          hw.map (fun p => if p.1 == key then (p.1, groupAdd p.2 hour st.trip_id) else p)

def buildHeadways (stopTimes : List StopTimeRow) (trips : List TripRow)
    (activeServiceIds : List String) : List (String × GroupData) :=
  (stopTimes.filter (fun st => isActiveTrip trips activeServiceIds st.trip_id)).foldl
    (processStopTime trips) []

/-- `hourlyTrips[h] = tripTimes[h] ? tripTimes[h].size : 0`, as a function of
the hour (buckets only hold hours < 24, so all other hours read 0). -/
def hourlyOfGroup (g : GroupData) (h : Nat) : Nat :=
  ((g.tripTimes.find? (fun p => p.1 == h)).map (fun p => p.2.length)).getD 0

def profileFind (l : List (String × (Nat → Nat))) (s : String) : Option (Nat → Nat) :=
  (l.find? (fun p => p.1 == s)).map (fun p => p.2)

/-- Pointwise read of an aggregated profile. -/
def profileAt (l : List (String × (Nat → Nat))) (s : String) (h : Nat) : Option Nat :=
  (profileFind l s).map (fun f => f h)

def mapUpdate (l : List (String × (Nat → Nat))) (k : String)
    (u : (Nat → Nat) → (Nat → Nat)) : List (String × (Nat → Nat)) :=
  l.map (fun p => if p.1 == k then (p.1, u p.2) else p)

/-- One step of the per-stop aggregation: first group for a stop installs its
hourly counts, later groups merge by per-hour maximum (the JS loop mutates
hours 0..23; every group profile vanishes off 0..23, so the pointwise-max
function agrees with it at every hour). -/
def aggregateStep (acc : List (String × (Nat → Nat))) (g : GroupData) :
    List (String × (Nat → Nat)) :=
  match profileFind acc g.stop_id with
  | none => acc ++ [(g.stop_id, fun h => hourlyOfGroup g h)]
  | some _ => mapUpdate acc g.stop_id (fun f => fun h => max (f h) (hourlyOfGroup g h))

/-- `stopMaxFrequencies`, built over `Object.values(stopRouteDirectionHeadways)`
in insertion order. -/
def aggregateStops (groups : List GroupData) : List (String × (Nat → Nat)) :=
  groups.foldl aggregateStep []

/-- `calculateStopFrequencies`: empty active set short-circuits to an empty
map; otherwise build groups, aggregate, and materialize hours 0..23 (the
source writes the decimal-string keys `h.toString()`; `Nat` keys per the
re-keying convention above). -/
def calculateStopFrequencies (stopTimes : List StopTimeRow) (trips : List TripRow)
    (activeServiceIds : List String) : List (String × HourlyTrips) :=
  if activeServiceIds.isEmpty then []
  else
    let groups := (buildHeadways stopTimes trips activeServiceIds).map (fun p => p.2)
    (aggregateStops groups).map
      (fun p => (p.1, (List.range 24).map (fun h => (h, p.2 h))))

end Transit

namespace Transit

theorem mapUpdate_cons_pos (p : String × (Nat → Nat)) (l : List (String × (Nat → Nat)))
    (k : String) (u : (Nat → Nat) → (Nat → Nat)) (hpk : (p.1 == k) = true) :
    mapUpdate (p :: l) k u = (p.1, u p.2) :: mapUpdate l k u := by
  unfold mapUpdate
  simp only [List.map_cons]
  congr 1
  simp [hpk]

theorem mapUpdate_cons_neg (p : String × (Nat → Nat)) (l : List (String × (Nat → Nat)))
    (k : String) (u : (Nat → Nat) → (Nat → Nat)) (hpk : (p.1 == k) = false) :
    mapUpdate (p :: l) k u = p :: mapUpdate l k u := by
  unfold mapUpdate
  simp only [List.map_cons]
  congr 1
  simp [hpk]

theorem profileFind_cons (x : String × (Nat → Nat)) (l : List (String × (Nat → Nat)))
    (s : String) :
    profileFind (x :: l) s = if x.1 == s then some x.2 else profileFind l s := by
  unfold profileFind
  simp only [List.find?]
  cases h : (x.1 == s) with
  | true => simp [h]
  | false => simp [h]

theorem profileFind_append_ne (l : List (String × (Nat → Nat))) (k s : String)
    (f : Nat → Nat) (hne : s ≠ k) :
    profileFind (l ++ [(k, f)]) s = profileFind l s := by
  unfold profileFind
  rw [List.find?_append]
  cases hfind : l.find? (fun p => p.1 == s) with
  | some p => rfl
  | none =>
    simp only [Option.or]
    have : (k == s) = false := beq_eq_false_iff_ne.mpr (Ne.symm hne)
    simp [List.find?, this]

theorem profileFind_append_self (l : List (String × (Nat → Nat))) (k : String)
    (f : Nat → Nat) (hnone : profileFind l k = none) :
    profileFind (l ++ [(k, f)]) k = some f := by
  unfold profileFind at hnone ⊢
  rw [List.find?_append]
  cases hfind : l.find? (fun p => p.1 == k) with
  | some p => rw [hfind] at hnone; simp at hnone
  | none => simp [List.find?]

theorem profileFind_mapUpdate_ne (l : List (String × (Nat → Nat))) (k s : String)
    (u : (Nat → Nat) → (Nat → Nat)) (hne : s ≠ k) :
    profileFind (mapUpdate l k u) s = profileFind l s := by
  induction l with
  | nil => rfl
  | cons p l ih =>
    by_cases hpk : (p.1 == k) = true
    · have hps : (p.1 == s) = false :=
        beq_eq_false_iff_ne.mpr (by rw [beq_iff_eq.mp hpk]; exact Ne.symm hne)
      rw [mapUpdate_cons_pos _ _ _ _ hpk, profileFind_cons, profileFind_cons, ih]
      simp [hps]
    · rw [mapUpdate_cons_neg _ _ _ _ (by simpa using hpk), profileFind_cons,
        profileFind_cons, ih]

theorem profileFind_mapUpdate_self (l : List (String × (Nat → Nat))) (k : String)
    (u : (Nat → Nat) → (Nat → Nat)) :
    profileFind (mapUpdate l k u) k = (profileFind l k).map u := by
  induction l with
  | nil => rfl
  | cons p l ih =>
    by_cases hpk : (p.1 == k) = true
    · rw [mapUpdate_cons_pos _ _ _ _ hpk, profileFind_cons, profileFind_cons]
      simp [hpk]
    · rw [mapUpdate_cons_neg _ _ _ _ (by simpa using hpk), profileFind_cons,
        profileFind_cons, ih]
      simp [hpk]

theorem aggregateStep_of_none (acc : List (String × (Nat → Nat))) (g : GroupData)
    (hf : profileFind acc g.stop_id = none) :
    aggregateStep acc g = acc ++ [(g.stop_id, fun h => hourlyOfGroup g h)] := by
  unfold aggregateStep
  rw [hf]

theorem aggregateStep_of_some (acc : List (String × (Nat → Nat))) (g : GroupData)
    (f : Nat → Nat) (hf : profileFind acc g.stop_id = some f) :
    aggregateStep acc g =
      mapUpdate acc g.stop_id (fun f0 => fun h => max (f0 h) (hourlyOfGroup g h)) := by
  unfold aggregateStep
  rw [hf]

end Transit

namespace Transit

theorem profileAt_foldl (groups : List GroupData) :
    ∀ (acc : List (String × (Nat → Nat))) (s : String) (h : Nat),
      profileAt (groups.foldl aggregateStep acc) s h =
        (match profileAt acc s h with
         | some v =>
           some (((groups.filter (fun g => g.stop_id == s)).map
             (fun g => hourlyOfGroup g h)).foldl max v)
         | none =>
           match (groups.filter (fun g => g.stop_id == s)).map
               (fun g => hourlyOfGroup g h) with
           | [] => none
           | v0 :: vs => some (vs.foldl max (max 0 v0))) := by
  induction groups with
  | nil =>
    intro acc s h
    simp only [List.foldl_nil, List.filter_nil, List.map_nil]
    cases profileAt acc s h <;> rfl
  | cons g gs ih =>
    intro acc s h
    simp only [List.foldl_cons, List.filter_cons]
    by_cases hsg : (g.stop_id == s) = true
    · have hseq : s = g.stop_id := (beq_iff_eq.mp hsg).symm
      rw [if_pos hsg]
      cases hacc : profileAt acc s h with
      | none =>
        have hfe : profileFind acc g.stop_id = none := by
          rw [← hseq]
          unfold profileAt at hacc
          cases hq : profileFind acc s with
          | none => rfl
          | some f => rw [hq] at hacc; simp at hacc
        rw [ih (aggregateStep acc g) s h]
        rw [aggregateStep_of_none acc g hfe]
        have hstep : profileAt (acc ++ [(g.stop_id, fun hh => hourlyOfGroup g hh)]) s h =
            some (hourlyOfGroup g h) := by
          unfold profileAt
          rw [hseq, profileFind_append_self _ _ _ hfe]
          rfl
        rw [hstep]
        simp only [List.map_cons, List.foldl_cons, Nat.zero_max]
      | some v =>
        have hfs : ∃ f, profileFind acc g.stop_id = some f ∧ f h = v := by
          rw [← hseq]
          unfold profileAt at hacc
          cases hq : profileFind acc s with
          | none => rw [hq] at hacc; simp at hacc
          | some f =>
            rw [hq] at hacc
            exact ⟨f, rfl, Option.some.inj hacc⟩
        rcases hfs with ⟨f, hf, hfv⟩
        rw [ih (aggregateStep acc g) s h]
        rw [aggregateStep_of_some acc g f hf]
        have hstep : profileAt (mapUpdate acc g.stop_id
            (fun f0 => fun hh => max (f0 hh) (hourlyOfGroup g hh))) s h =
            some (max v (hourlyOfGroup g h)) := by
          unfold profileAt
          rw [hseq, profileFind_mapUpdate_self, hf]
          simp [hfv]
        rw [hstep]
        simp only [List.map_cons, List.foldl_cons]
    · have hsne : s ≠ g.stop_id := by
        intro he
        rw [he] at hsg
        simp at hsg
      rw [if_neg hsg]
      rw [ih (aggregateStep acc g) s h]
      have hstep : profileAt (aggregateStep acc g) s h = profileAt acc s h := by
        unfold aggregateStep
        cases hq : profileFind acc g.stop_id with
        | none =>
          unfold profileAt
          rw [profileFind_append_ne _ _ _ _ hsne]
        | some f =>
          unfold profileAt
          rw [profileFind_mapUpdate_ne _ _ _ _ hsne]
      rw [hstep]

end Transit

namespace Transit

/-- Claim C2: for every stop present in the aggregator output, the per-stop
hourly profile equals, at each hour, the maximum (not the sum) of the hourly
distinct-trip counts over that stop's (route-key, direction) groups, and every
profile value is a non-negative integer. -/
theorem aggregator_elementwise_max_spec (groups : List GroupData) (s : String)
    (h : Nat) (hex : ∃ g ∈ groups, g.stop_id = s) :
    profileAt (aggregateStops groups) s h =
      some (((groups.filter (fun g => g.stop_id == s)).map
        (fun g => hourlyOfGroup g h)).foldl max 0) ∧
    ∀ v, profileAt (aggregateStops groups) s h = some v → 0 ≤ v := by
  have hmain := profileAt_foldl groups [] s h
  have hbase : profileAt ([] : List (String × (Nat → Nat))) s h = none := rfl
  rw [hbase] at hmain
  have hne : (groups.filter (fun g => g.stop_id == s)).map
      (fun g => hourlyOfGroup g h) ≠ [] := by
    rcases hex with ⟨g, hg, hgs⟩
    have hmem : g ∈ groups.filter (fun g => g.stop_id == s) :=
      List.mem_filter.mpr ⟨hg, by simp [hgs]⟩
    exact List.ne_nil_of_mem (List.mem_map_of_mem _ hmem)
  constructor
  · cases hl : (groups.filter (fun g => g.stop_id == s)).map
        (fun g => hourlyOfGroup g h) with
    | nil => exact absurd hl hne
    | cons v0 vs =>
      rw [hl] at hmain
      unfold aggregateStops
      rw [hmain]
      rfl
  · intro v _
    exact Nat.zero_le v

/-- Two groups at the same stop with different hourly counts. -/
def demoGroupA : GroupData :=
  { stop_id := "S1", route_id := "RA", direction_id := "0",
    tripTimes := [(6, ["t1", "t2"]), (7, ["t3"])] }

def demoGroupB : GroupData :=
  { stop_id := "S1", route_id := "RB", direction_id := "1",
    tripTimes := [(6, ["u1"]), (8, ["u2", "u3", "u4"])] }

/-- Witness for C2: the aggregated hour-6 value of stop "S1" equals the
element-wise maximum over its two groups, by the aggregation theorem. -/
theorem aggregator_elementwise_max_spec_witness :
    profileAt (aggregateStops [demoGroupA, demoGroupB]) "S1" 6 =
      some ((([demoGroupA, demoGroupB].filter (fun g => g.stop_id == "S1")).map
        (fun g => hourlyOfGroup g 6)).foldl max 0) :=
  (aggregator_elementwise_max_spec [demoGroupA, demoGroupB] "S1" 6 (by decide)).1

end Transit

namespace Transit

/-- Whether a stop-time row is retained (active trip, usable time) and falls
at the given stop, route key, direction and hour. -/
def retainedInGroup (trips : List TripRow) (activeServiceIds : List String)
    (stopId rk dir : String) (h : Nat) (st : StopTimeRow) : Bool :=
  isActiveTrip trips activeServiceIds st.trip_id && st.stop_id == stopId &&
    ((pickTime st).bind parseHourField == some h) &&
    (match tripInfoOf trips st.trip_id with
     | none => false
     | some t => routeKey t.route_id == rk && t.direction_id == dir)

/-- The number of distinct trip ids with a retained stop-time in the given
group and hour: what the source's own comments say each hour bucket counts. -/
def distinctTripsInGroupAtHour (stopTimes : List StopTimeRow) (trips : List TripRow)
    (activeServiceIds : List String) (stopId rk dir : String) (h : Nat) : Nat :=
  (((stopTimes.filter (retainedInGroup trips activeServiceIds stopId rk dir h)).map
      (fun st => st.trip_id)).dedup).length

/-- Two active trips on the same route and direction; the second one's trip id
"6" collides with the decimal property name of the hour-6 bucket that the
first one creates. -/
def bugTrips : List TripRow :=
  [ { trip_id := "9901", route_id := "R", direction_id := "0", service_id := "S" },
    { trip_id := "6", route_id := "R", direction_id := "0", service_id := "S" } ]

def bugStopTimes : List StopTimeRow :=
  [ { trip_id := "9901", stop_id := "STOP", arrival_time := some "06:00:00",
      departure_time := none },
    { trip_id := "6", stop_id := "STOP", arrival_time := some "10:00:00",
      departure_time := none } ]

/-- The hourly profile `calculateStopFrequencies` reports for a stop id
(missing stop: empty profile, all hours 0). -/
def reportedProfile (stopTimes : List StopTimeRow) (trips : List TripRow)
    (activeServiceIds : List String) (stopId : String) : HourlyTrips :=
  (((calculateStopFrequencies stopTimes trips activeServiceIds).find?
      (fun p => p.1 == stopId)).map (fun p => p.2)).getD []

/-- Claim C9 (code bug): the dedup guard `if (!tripTimes[tripId])` reads the
property named by the trip id in an object whose keys are hour buckets, so
trip "6" at hour 10 is silently dropped once an hour-6 bucket exists: the
reported hour-10 count is 0 although one distinct trip has a retained
stop-time at that stop, route, direction and hour 10. -/
theorem group_hour_dedup_bug :
    distinctTripsInGroupAtHour bugStopTimes bugTrips ["S"] "STOP" "R" "0" 10 = 1 ∧
    hourCount (reportedProfile bugStopTimes bugTrips ["S"] "STOP") 10 = 0 ∧
    hourCount (reportedProfile bugStopTimes bugTrips ["S"] "STOP") 6 = 1 := by
  refine ⟨by decide, by decide, by decide⟩

/-- Claim C8: a calendar with no Monday–Friday-active entry makes service
selection return the empty set (not an error), and frequency aggregation with
an empty active service-id set returns an empty per-stop frequency map. -/
theorem empty_service_spec :
    (∀ calendar : List CalendarEntry, weekdayEntries calendar = [] →
        getRelevantServiceIds calendar = []) ∧
    (∀ stopTimes trips, calculateStopFrequencies stopTimes trips [] = []) := by
  constructor
  · intro calendar hcal
    simp [getRelevantServiceIds, hcal]
  · intro stopTimes trips
    rfl

/-- A calendar holding only a Saturday service. -/
def satOnlyCalendar : List CalendarEntry :=
  [ { service_id := "sat", monday := "0", tuesday := "0", wednesday := "0",
      thursday := "0", friday := "0", saturday := "1", sunday := "0",
      start_date := "20250601", end_date := "20251231" } ]

/-- Witness for C8: the Saturday-only calendar selects no services, and the
bug-demo schedule aggregated with no active services yields an empty map. -/
theorem empty_service_spec_witness :
    getRelevantServiceIds satOnlyCalendar = [] ∧
    calculateStopFrequencies bugStopTimes bugTrips [] = [] :=
  ⟨empty_service_spec.1 satOnlyCalendar (by decide),
    empty_service_spec.2 bugStopTimes bugTrips⟩

end Transit

namespace Transit

/-! ## Geometry capability (turf.js)

The coverage engine calls turf.js but does not implement it; following the
spec's capability-interface view, the primitives are embedded as a record
over an arbitrary polygon type `P`.  A primitive that can throw returns
`Except Unit`; `.error ()` models a raised exception at the call site.
`intersect`/`difference` may also return JS `null` (no geometry), hence
`Except Unit (Option P)`.  Areas are `ℚ` (exact stand-in for the doubles). -/

structure GeoOps (P : Type) where
  area : P → ℚ
  union : P → P → Except Unit P
  intersect : P → P → Except Unit (Option P)
  difference : P → P → Except Unit (Option P)
  simplify : P → P
  circle : ℚ → ℚ → ℚ → Nat → P
  booleanIntersects : P → P → Except Unit Bool
  booleanWithin : P → P → Except Unit Bool

/-- `HALF_MILE_METERS = 804.672` (the source's walking-distance constant). -/
def HALF_MILE_METERS : ℚ := 804672 / 1000

/-- One record of the loaded isochrones map; only the 10-minute contour is
read by the resolver (`isoData.isochrone_10min`). -/
structure IsoEntry (P : Type) where
  isochrone_10min : Option P

/-- `isochrones.get(key)` where the map was built with `Map.set` per loaded
record: the last insertion for a key wins. -/
def lookupIso {P : Type} (isoMap : List (String × IsoEntry P)) (k : String) :
    Option (IsoEntry P) :=
  (isoMap.reverse.find? (fun p => p.1 == k)).map (fun p => p.2)

/-- `isoData && isoData.isochrone_10min` for one key. -/
def resolve10 {P : Type} (isoMap : List (String × IsoEntry P)) (k : String) :
    Option P :=
  match lookupIso isoMap k with
  | none => none
  | some e => e.isochrone_10min

/-- `(year === '2027' && !stop.isFuture) ? '2025' : year`. -/
def isochroneYearFor (stop : SiteStop) (year : String) : String :=
  if year == "2027" && !stop.isFuture then "2025" else year

/-- The `possibleKeys` array of `findIsochroneForStop`, in source order.
(The defensive `stop.id || stop.stop_id` read always sees `id` on records of
the frequent list, which is what this function receives.) -/
def possibleKeys (stop : SiteStop) (year : String) : List String :=
  [isochroneYearFor stop year ++ "_soundtransit_" ++ stop.id,
   isochroneYearFor stop year ++ "_metro_" ++ stop.id,
   stop.id]

def tryKeys {P : Type} (isoMap : List (String × IsoEntry P)) :
    List String → Option P
  | [] => none
  | k :: ks =>
    match resolve10 isoMap k with
    | some poly => some poly
    | none => tryKeys isoMap ks

def findIsochroneForStop {P : Type} (isoMap : List (String × IsoEntry P))
    (stop : SiteStop) (year : String) : Option P :=
  tryKeys isoMap (possibleKeys stop year)

/-- Walkshed for one stop: the resolved 10-minute isochrone, else
`turf.circle([lon, lat], HALF_MILE_METERS / 1000, {steps: 32, units:
'kilometers'})`. -/
def walkshedForStop {P : Type} (geo : GeoOps P) (year : String)
    (isoMap : List (String × IsoEntry P)) (stop : SiteStop) : P :=
  match findIsochroneForStop isoMap stop year with
  | some iso => iso
  | none => geo.circle stop.lon stop.lat (HALF_MILE_METERS / 1000) 32

/-- Body of one union-loop iteration:
`try { union = turf.union(union, w) } catch { continue }`. -/
def unionStep {P : Type} (geo : GeoOps P) (acc w : P) : P :=
  match geo.union acc w with
  | .ok u => u
  | .error _ => acc

/-- The indexed loop `for (let i = 1; i < walksheds.length; i++)` with `fuel`
iterations remaining. -/
def unionLoopAux {P : Type} (geo : GeoOps P) (ws : List P) :
    Nat → Nat → P → P
  | 0, _, acc => acc
  | fuel + 1, i, acc =>
    match ws[i]? with
    | none => acc
    | some w => unionLoopAux geo ws fuel (i + 1) (unionStep geo acc w)

/-- `let union = walksheds[0]` followed by the loop from index 1. -/
def mergeWalksheds {P : Type} (geo : GeoOps P) (w0 : P) (rest : List P) : P :=
  unionLoopAux geo (w0 :: rest) rest.length 1 w0

structure CoverageResult (P : Type) where
  mergedPolygon : Option P
  mergedPolygonOutOfBounds : Option P
  coveragePercent : ℚ
  deriving Repr, DecidableEq

/-- The hard-coded fallback reference area (m²) used when no boundary is
available. -/
def seattleFallbackArea : ℚ := 217000000

/-- The clipping block (boundary present): simplify the boundary, intersect
and difference the unsimplified union against the simplified boundary (each
in its own try/catch: a throw leaves `clipped`/`mergedPolygonOutOfBounds` at
`null`); with a non-null intersection the coverage ratio divides by the area
of the original unsimplified boundary; with a null intersection the whole
union is out of region and coverage is 0.  `coveragePercent` is the numeric
value before the display-only `.toFixed(1)` formatting. -/
def clipToBoundary {P : Type} (geo : GeoOps P) (u : P) (b : P) : CoverageResult P :=
  let simplifiedBoundary := geo.simplify b
  let clipped : Option P :=
    match geo.intersect u simplifiedBoundary with
    | .ok c => c
    | .error _ => none
  let outOfBounds : Option P :=
    match geo.difference u simplifiedBoundary with
    | .ok d => d
    | .error _ => none
  match clipped with
  | some c => ⟨some c, outOfBounds, geo.area c / geo.area b * 100⟩
  | none => ⟨none, some u, 0⟩

/-- `calculateWalkshedCoverage`: empty stop list short-circuits; otherwise
build the walksheds, reduce them by pairwise union, and clip to the boundary
(`b` is the boundary's first feature) or fall back to the hard-coded
reference area.  The outer catch-all (which appends "+" to a crude estimate)
is reachable only through primitives this embedding models as total, and is
not represented. -/
def calculateWalkshedCoverage {P : Type} (geo : GeoOps P) (year : String)
    (isoMap : List (String × IsoEntry P)) (stopList : List SiteStop)
    (boundary : Option P) : CoverageResult P :=
  match stopList with
  | [] => ⟨none, none, 0⟩
  | s0 :: rest =>
    let w0 := walkshedForStop geo year isoMap s0
    let ws := rest.map (walkshedForStop geo year isoMap)
    let u := mergeWalksheds geo w0 ws
    match boundary with
    | some b => clipToBoundary geo u b
    | none => ⟨some u, none, geo.area u / seattleFallbackArea * 100⟩

/-! ## Census population apportionment (`loadCensusData`) -/

structure CensusBlock (P : Type) where
  place : String
  pop : Nat
  geom : P

/-- Population credited to one census block.  The whole per-block body runs
in a try/catch whose catch skips the block (0); `turf.intersect` throwing is
caught there, while a `null` intersection result falls back to the full
population.  (The `blocksInWalkshed` counter increments exactly on the
crediting paths and carries no population; it is not modelled.) -/
def blockContribution {P : Type} (geo : GeoOps P) (walkshed : P)
    (b : CensusBlock P) : ℚ :=
  if b.place ≠ "Seattle" ∨ b.pop < 1 then 0
  else
    match geo.booleanIntersects b.geom walkshed with
    | .error _ => 0
    | .ok false => 0
    | .ok true =>
      match geo.booleanWithin b.geom walkshed with
      | .error _ => 0
      | .ok true => (b.pop : ℚ)
      | .ok false =>
        match geo.intersect b.geom walkshed with
        | .error _ => 0
        | .ok none => (b.pop : ℚ)
        | .ok (some inter) => (b.pop : ℚ) * (geo.area inter / geo.area b.geom)

/-- `populationInWalkshed`: sum of the per-block credits over all blocks. -/
def populationInWalkshed {P : Type} (geo : GeoOps P) (walkshed : P)
    (blocks : List (CensusBlock P)) : ℚ :=
  (blocks.map (blockContribution geo walkshed)).sum

end Transit

namespace Transit

theorem unionLoopAux_eq_foldl {P : Type} (geo : GeoOps P) (ws : List P) :
    ∀ (fuel i : Nat) (acc : P), ws.length ≤ i + fuel →
      unionLoopAux geo ws fuel i acc = (ws.drop i).foldl (unionStep geo) acc := by
  intro fuel
  induction fuel with
  | zero =>
    intro i acc hle
    rw [List.drop_eq_nil_of_le (by omega)]
    rfl
  | succ fuel ih =>
    intro i acc hle
    cases hwi : ws[i]? with
    | none =>
      have hge : ws.length ≤ i := by
        by_contra hlt
        push_neg at hlt
        rw [List.getElem?_eq_getElem hlt] at hwi
        cases hwi
      rw [List.drop_eq_nil_of_le hge]
      simp only [unionLoopAux, hwi]
      rfl
    | some w =>
      have hlt : i < ws.length := by
        by_contra hge
        push_neg at hge
        rw [List.getElem?_eq_none hge] at hwi
        cases hwi
      have hw : ws[i] = w := by
        rw [List.getElem?_eq_getElem hlt] at hwi
        exact Option.some.inj hwi
      rw [List.drop_eq_getElem_cons hlt, hw]
      simp only [unionLoopAux, hwi, List.foldl_cons]
      exact ih (i + 1) (unionStep geo acc w) (by omega)

/-- Claim C6: the pairwise union reduction equals the left fold of the
union-with-skip step over the walkshed sequence: a step whose union primitive
raises keeps the prior accumulator, and one whose union succeeds takes the
union's result, so a raising union never aborts the reduction. -/
theorem union_reduction_spec {P : Type} (geo : GeoOps P) :
    (∀ (w0 : P) (rest : List P),
      mergeWalksheds geo w0 rest = rest.foldl (unionStep geo) w0) ∧
    (∀ (acc w : P) (e : Unit), geo.union acc w = .error e →
      unionStep geo acc w = acc) ∧
    (∀ (acc w u : P), geo.union acc w = .ok u → unionStep geo acc w = u) := by
  refine ⟨?_, ?_, ?_⟩
  · intro w0 rest
    unfold mergeWalksheds
    rw [unionLoopAux_eq_foldl geo (w0 :: rest) rest.length 1 w0 (by simp; omega)]
    rfl
  · intro acc w e he
    unfold unionStep
    rw [he]
  · intro acc w u hu
    unfold unionStep
    rw [hu]

/-- A concrete planar-free geometry on `Nat` used to instantiate witnesses. -/
def natGeo : GeoOps Nat :=
  { area := fun n => (n : ℚ)
    union := fun a b => .ok (max a b)
    intersect := fun a b => .ok (if min a b == 0 then none else some (min a b))
    difference := fun a b => .ok (if b < a then some (a - b) else none)
    simplify := fun p => p
    circle := fun _ _ _ steps => steps
    booleanIntersects := fun a b => .ok (decide (min a b ≠ 0))
    booleanWithin := fun a b => .ok (decide (a ≤ b)) }

/-- The same geometry with a union primitive that always raises. -/
def errUnionGeo : GeoOps Nat :=
  { natGeo with union := fun _ _ => .error () }

/-- Witness for C6: with an always-raising union, one step keeps the prior
accumulator and the whole reduction equals the fold, by the reduction
theorem. -/
theorem union_reduction_spec_witness :
    unionStep errUnionGeo 5 7 = 5 ∧
    mergeWalksheds errUnionGeo 4 [9, 2] = [9, 2].foldl (unionStep errUnionGeo) 4 :=
  ⟨(union_reduction_spec errUnionGeo).2.1 5 7 () rfl,
    (union_reduction_spec errUnionGeo).1 4 [9, 2]⟩

end Transit

namespace Transit

/-- Claim C7: catchment resolution tries, in order, the keys
year_soundtransit_id, year_metro_id and the raw stop id, returning the first
key's 10-minute contour; when no key resolves to an entry with a 10-minute
contour, the walkshed is the circular buffer of radius 0.804672 km with 32
vertices centered on (lon, lat) — resolution is total and never errors. -/
theorem catchment_resolution_spec {P : Type} (geo : GeoOps P)
    (isoMap : List (String × IsoEntry P)) (stop : SiteStop) (year : String) :
    (∀ p : P, findIsochroneForStop isoMap stop year = some p ↔
      (resolve10 isoMap (isochroneYearFor stop year ++ "_soundtransit_" ++ stop.id) = some p ∨
       (resolve10 isoMap (isochroneYearFor stop year ++ "_soundtransit_" ++ stop.id) = none ∧
        resolve10 isoMap (isochroneYearFor stop year ++ "_metro_" ++ stop.id) = some p) ∨
       (resolve10 isoMap (isochroneYearFor stop year ++ "_soundtransit_" ++ stop.id) = none ∧
        resolve10 isoMap (isochroneYearFor stop year ++ "_metro_" ++ stop.id) = none ∧
        resolve10 isoMap stop.id = some p))) ∧
    ((resolve10 isoMap (isochroneYearFor stop year ++ "_soundtransit_" ++ stop.id) = none ∧
      resolve10 isoMap (isochroneYearFor stop year ++ "_metro_" ++ stop.id) = none ∧
      resolve10 isoMap stop.id = none) →
      findIsochroneForStop isoMap stop year = none ∧
      walkshedForStop geo year isoMap stop =
        geo.circle stop.lon stop.lat (HALF_MILE_METERS / 1000) 32) ∧
    HALF_MILE_METERS / 1000 = 804672 / 1000000 := by
  refine ⟨?_, ?_, by norm_num [HALF_MILE_METERS]⟩
  · intro p
    unfold findIsochroneForStop possibleKeys
    simp only [tryKeys]
    cases hk1 : resolve10 isoMap
        (isochroneYearFor stop year ++ "_soundtransit_" ++ stop.id) with
    | some q => simp [hk1]
    | none =>
      cases hk2 : resolve10 isoMap
          (isochroneYearFor stop year ++ "_metro_" ++ stop.id) with
      | some q => simp [hk2]
      | none =>
        cases hk3 : resolve10 isoMap stop.id with
        | some q => simp [hk3]
        | none => simp [hk3]
  · rintro ⟨h1, h2, h3⟩
    have hnone : findIsochroneForStop isoMap stop year = none := by
      unfold findIsochroneForStop possibleKeys
      simp only [tryKeys, h1, h2, h3]
    refine ⟨hnone, ?_⟩
    unfold walkshedForStop
    rw [hnone]

/-- A fixed stop for the resolution witness. -/
def demoSiteStop : SiteStop :=
  { id := "X90", name := "Demo Stop", lat := 47, lon := -122, isFuture := false,
    routeName := none, description := none, hourlyTrips := none }

/-- Witness for C7: with an empty isochrones map the walkshed is the 32-vertex
circular buffer of radius 0.804672 km, by the resolution theorem. -/
theorem catchment_resolution_spec_witness :
    walkshedForStop natGeo "2025" [] demoSiteStop =
      natGeo.circle demoSiteStop.lon demoSiteStop.lat (HALF_MILE_METERS / 1000) 32 :=
  ((catchment_resolution_spec natGeo [] demoSiteStop "2025").2.1 (by decide)).2

end Transit

namespace Transit

/-- Claim C3: with a boundary supplied, intersection and difference are taken
of the unsimplified union against the simplified boundary; a non-null
intersection becomes the merged polygon and the coverage ratio is its area
divided by the area of the original unsimplified boundary, times 100; a null
intersection yields a null merged polygon, the whole union as the
out-of-region remainder, and coverage 0. -/
theorem coverage_clipping_spec {P : Type} (geo : GeoOps P) (u b : P) :
    (∀ c : P, geo.intersect u (geo.simplify b) = .ok (some c) →
      clipToBoundary geo u b =
        ⟨some c,
          (match geo.difference u (geo.simplify b) with
           | .ok d => d
           | .error _ => none),
          geo.area c / geo.area b * 100⟩) ∧
    (geo.intersect u (geo.simplify b) = .ok none →
      clipToBoundary geo u b = ⟨none, some u, 0⟩) ∧
    (∀ (year : String) (isoMap : List (String × IsoEntry P)) (s0 : SiteStop)
        (rest : List SiteStop),
      calculateWalkshedCoverage geo year isoMap (s0 :: rest) (some b) =
        clipToBoundary geo
          (mergeWalksheds geo (walkshedForStop geo year isoMap s0)
            (rest.map (walkshedForStop geo year isoMap))) b) := by
  refine ⟨?_, ?_, ?_⟩
  · intro c hc
    unfold clipToBoundary
    simp only [hc]
  · intro hc
    unfold clipToBoundary
    simp only [hc]
  · intro year isoMap s0 rest
    rfl

/-- Witness for C3: on the concrete geometry, union 5 against boundary 9 has
the non-empty intersection 5, so the merged polygon is 5 and the coverage
ratio is area 5 / area 9 × 100, by the clipping theorem. -/
theorem coverage_clipping_spec_witness :
    clipToBoundary natGeo 5 9 =
      ⟨some 5,
        (match natGeo.difference 5 (natGeo.simplify 9) with
         | .ok d => d
         | .error _ => none),
        natGeo.area 5 / natGeo.area 9 * 100⟩ :=
  (coverage_clipping_spec natGeo 5 9).1 5 rfl

end Transit

namespace Transit

/-- Claim C4: a candidate census block (Seattle label, population ≥ 1)
contributes 0 when the boolean intersection test fails, its full population
when boolean-within holds, population × (intersection area / block area) when
the partial-overlap intersection succeeds, and its full population when the
intersection yields nothing despite a reported overlap; and, whenever every
block's intersection area is bounded by its own (non-negative) area, the
total apportioned population never exceeds the sum of the candidate blocks'
populations. -/
theorem population_apportionment_spec {P : Type} (geo : GeoOps P) (walkshed : P) :
    (∀ b : CensusBlock P, b.place = "Seattle" → 1 ≤ b.pop →
      ((geo.booleanIntersects b.geom walkshed = .ok false →
          blockContribution geo walkshed b = 0) ∧
       (geo.booleanIntersects b.geom walkshed = .ok true →
        geo.booleanWithin b.geom walkshed = .ok true →
          blockContribution geo walkshed b = (b.pop : ℚ)) ∧
       (∀ inter : P, geo.booleanIntersects b.geom walkshed = .ok true →
        geo.booleanWithin b.geom walkshed = .ok false →
        geo.intersect b.geom walkshed = .ok (some inter) →
          blockContribution geo walkshed b =
            (b.pop : ℚ) * (geo.area inter / geo.area b.geom)) ∧
       (geo.booleanIntersects b.geom walkshed = .ok true →
        geo.booleanWithin b.geom walkshed = .ok false →
        geo.intersect b.geom walkshed = .ok none →
          blockContribution geo walkshed b = (b.pop : ℚ)))) ∧
    (∀ blocks : List (CensusBlock P),
      (∀ b ∈ blocks, 0 ≤ geo.area b.geom ∧
        ∀ inter : P, geo.intersect b.geom walkshed = .ok (some inter) →
          geo.area inter ≤ geo.area b.geom) →
      populationInWalkshed geo walkshed blocks ≤
        ((blocks.filter (fun b => b.place == "Seattle" && decide (1 ≤ b.pop))).map
          (fun b => (b.pop : ℚ))).sum) := by
  constructor
  · intro b hplace hpop
    have hguard : ¬(b.place ≠ "Seattle" ∨ b.pop < 1) :=
      not_or.mpr ⟨fun hne => hne hplace, by omega⟩
    refine ⟨?_, ?_, ?_, ?_⟩
    · intro hbi
      unfold blockContribution
      rw [if_neg hguard]
      simp only [hbi]
    · intro hbi hbw
      unfold blockContribution
      rw [if_neg hguard]
      simp only [hbi, hbw]
    · intro inter hbi hbw hint
      unfold blockContribution
      rw [if_neg hguard]
      simp only [hbi, hbw, hint]
    · intro hbi hbw hint
      unfold blockContribution
      rw [if_neg hguard]
      simp only [hbi, hbw, hint]
  · intro blocks
    induction blocks with
    | nil =>
      intro _
      simp [populationInWalkshed]
    | cons b bs ih =>
      intro hblocks
      have hb := hblocks b (List.mem_cons_self _ _)
      have ihs := ih (fun x hx => hblocks x (List.mem_cons_of_mem _ hx))
      simp only [populationInWalkshed, List.map_cons, List.sum_cons] at ihs ⊢
      rw [List.filter_cons]
      by_cases hcand : (b.place == "Seattle" && decide (1 ≤ b.pop)) = true
      · rw [if_pos hcand]
        simp only [List.map_cons, List.sum_cons]
        have hcand' : b.place = "Seattle" ∧ 1 ≤ b.pop := by
          simpa [Bool.and_eq_true, beq_iff_eq, decide_eq_true_iff] using hcand
        have hterm : blockContribution geo walkshed b ≤ (b.pop : ℚ) := by
          unfold blockContribution
          rw [if_neg (not_or.mpr ⟨fun hne => hne hcand'.1, by omega⟩)]
          cases hbi : geo.booleanIntersects b.geom walkshed with
          | error e => exact Nat.cast_nonneg _
          | ok bi =>
            cases bi with
            | false => exact Nat.cast_nonneg _
            | true =>
              cases hbw : geo.booleanWithin b.geom walkshed with
              | error e => exact Nat.cast_nonneg _
              | ok bw =>
                cases bw with
                | true => exact le_refl _
                | false =>
                  cases hint : geo.intersect b.geom walkshed with
                  | error e => exact Nat.cast_nonneg _
                  | ok o =>
                    cases o with
                    | none => exact le_refl _
                    | some inter =>
                      have haB : 0 ≤ geo.area b.geom := hb.1
                      have haI : geo.area inter ≤ geo.area b.geom :=
                        hb.2 inter hint
                      have hr : geo.area inter / geo.area b.geom ≤ 1 := by
                        rcases eq_or_lt_of_le haB with h0 | hpos
                        · rw [← h0, div_zero]
                          norm_num
                        · exact (div_le_one hpos).mpr haI
                      calc (b.pop : ℚ) * (geo.area inter / geo.area b.geom)
                          ≤ (b.pop : ℚ) * 1 :=
                            mul_le_mul_of_nonneg_left hr (Nat.cast_nonneg _)
                        _ = (b.pop : ℚ) := mul_one _
        exact add_le_add hterm ihs
      · rw [if_neg hcand]
        have hg : b.place ≠ "Seattle" ∨ b.pop < 1 := by
          by_contra hno
          push_neg at hno
          exact hcand (by simp [hno.1, hno.2])
        have hzero : blockContribution geo walkshed b = 0 := by
          unfold blockContribution
          rw [if_pos hg]
        rw [hzero, zero_add]
        exact ihs

/-- A census block lying fully inside the walkshed of the concrete geometry. -/
def demoBlockIn : CensusBlock Nat := { place := "Seattle", pop := 120, geom := 4 }

/-- Witness for C4: the fully-contained demo block contributes its entire
population and the one-block total respects the candidate-sum bound, by the
apportionment theorem. -/
theorem population_apportionment_spec_witness :
    blockContribution natGeo 10 demoBlockIn = (demoBlockIn.pop : ℚ) ∧
    populationInWalkshed natGeo 10 [demoBlockIn] ≤
      (([demoBlockIn].filter (fun b => b.place == "Seattle" && decide (1 ≤ b.pop))).map
        (fun b => (b.pop : ℚ))).sum :=
  ⟨((population_apportionment_spec natGeo 10).1 demoBlockIn rfl (by decide)).2.1
      rfl rfl,
    (population_apportionment_spec natGeo 10).2 [demoBlockIn] (by
      intro b hb
      simp only [List.mem_singleton] at hb
      subst hb
      refine ⟨by norm_num [natGeo, demoBlockIn], ?_⟩
      intro inter hint
      have hi : inter = 4 := by
        simp [natGeo, demoBlockIn] at hint
        omega
      subst hi
      norm_num [natGeo, demoBlockIn])⟩

end Transit
